import Mathlib

/-!
Shallow embedding of the ccusage OpenCode data loader
(`src/apps/opencode/src/data-loader.ts`, `src/apps/opencode/src/_sqlite.ts`)
and the Claude pricing fetcher override (`PricingFetcher.getModelPricing`
with `CLAUDE_MODEL_ALIASES`).

JSON numbers are modelled as rationals (`Rat`); JSON values as an inductive
`Json`; the filesystem and environment as an explicit `World` record; the
SQLite database as its logical table contents.  Fallible operations
(JSON parsing of a malformed string, `json_extract` over malformed JSON)
return `Except String`; the `try/finally` discipline around the database
handle is made observable through an explicit `HandleEvent` trace.
-/

namespace Ccusage

/-- JSON values as produced by `JSON.parse`.  Object fields keep source
order; a duplicated key is resolved by the later occurrence, as in
JavaScript. -/
inductive Json where
  | null : Json
  | bool (b : Bool) : Json
  | num (q : Rat) : Json
  | str (s : String) : Json
  | arr (elems : List Json) : Json
  | obj (fields : List (String × Json)) : Json

/-- Field access on a JSON object (`undefined`, i.e. `none`, on a missing
field or a non-object).  The later of two duplicate keys wins, matching
`JSON.parse`. -/
def Json.getField : Json → String → Option Json
  | .obj fields, k => fields.foldl (fun acc p => if p.1 = k then some p.2 else acc) none
  | _, _ => none

def Json.asNumber : Json → Option Rat
  | .num q => some q
  | _ => none

def Json.asString : Json → Option String
  | .str s => some s
  | _ => none

/-- Output of `assistantTokensSchema` (data-loader.ts lines 41-50):
`input`/`output` numbers, `reasoning` optional with default `0`,
`total` optional, `cache.read`/`cache.write` numbers. -/
structure AssistantTokens where
  input : Rat
  output : Rat
  reasoning : Rat
  total : Option Rat
  cacheRead : Rat
  cacheWrite : Rat
deriving DecidableEq

/-- Output of `assistantMessageDataSchema` (data-loader.ts lines 56-66).
The `role` field is the literal `"assistant"` and is therefore not stored. -/
structure AssistantMessageData where
  modelID : String
  providerID : String
  timeCreated : Rat
  timeCompleted : Option Rat
  cost : Rat
  tokens : AssistantTokens
deriving DecidableEq

/-- `v.safeParse(assistantTokensSchema, ·)`: valibot object validation,
failing on a missing required field or a wrong type, supplying defaults
for optional fields, ignoring unknown keys. -/
def parseTokens (j : Json) : Option AssistantTokens := do
  let input ← (j.getField "input").bind Json.asNumber
  let output ← (j.getField "output").bind Json.asNumber
  let reasoning ← match j.getField "reasoning" with
    | none => some (0 : Rat)
    | some jv => jv.asNumber
  let total ← match j.getField "total" with
    | none => some (none : Option Rat)
    | some jv => jv.asNumber.map some
  let cacheJ ← j.getField "cache"
  let cacheRead ← (cacheJ.getField "read").bind Json.asNumber
  let cacheWrite ← (cacheJ.getField "write").bind Json.asNumber
  some { input := input, output := output, reasoning := reasoning,
         total := total, cacheRead := cacheRead, cacheWrite := cacheWrite }

/-- `v.safeParse(assistantMessageDataSchema, ·)`: requires the literal
`role = "assistant"`, string `modelID`/`providerID`, a `time` object with
a numeric `created` and optional numeric `completed`, a numeric `cost`
and a valid `tokens` object. -/
def parseAssistantMessageData (j : Json) : Option AssistantMessageData :=
  if (j.getField "role").bind Json.asString = some "assistant" then do
    let modelID ← (j.getField "modelID").bind Json.asString
    let providerID ← (j.getField "providerID").bind Json.asString
    let timeJ ← j.getField "time"
    let created ← (timeJ.getField "created").bind Json.asNumber
    let completed ← match timeJ.getField "completed" with
      | none => some (none : Option Rat)
      | some jv => jv.asNumber.map some
    let cost ← (j.getField "cost").bind Json.asNumber
    let tokensJ ← j.getField "tokens"
    let tokens ← parseTokens tokensJ
    some { modelID := modelID, providerID := providerID, timeCreated := created,
           timeCompleted := completed, cost := cost, tokens := tokens }
  else none

/-- Content of the `data` TEXT column of the `message` table: either a
well-formed JSON document or a malformed string on which `JSON.parse`
(and SQLite's `json_extract`) raises. -/
inductive RawData where
  | json (j : Json) : RawData
  | malformed (s : String) : RawData

/-- Raw row shape returned by the message query (data-loader.ts lines 71-76). -/
structure MessageRow where
  id : String
  session_id : String
  time_created : Rat
  data : RawData

/-- Raw row shape returned by the session query (data-loader.ts lines 81-87). -/
structure SessionRow where
  id : String
  parent_id : Option String
  title : String
  project_id : String
  directory : String

/-- Logical contents of `opencode.db`: the `message` and `session` tables. -/
structure OpenCodeDb where
  messages : List MessageRow
  sessions : List SessionRow

/-- `LoadedUsageEntry` (data-loader.ts lines 92-103).  The timestamp keeps
the raw millisecond value handed to `new Date(...)`. -/
structure LoadedUsageEntry where
  timestamp : Rat
  sessionID : String
  inputTokens : Rat
  outputTokens : Rat
  cacheCreationInputTokens : Rat
  cacheReadInputTokens : Rat
  model : String
  costUSD : Option Rat
deriving DecidableEq

/-- `LoadedSessionMetadata` (data-loader.ts lines 105-111). -/
structure LoadedSessionMetadata where
  id : String
  parentID : Option String
  title : String
  projectID : String
  directory : String
deriving DecidableEq

/-- The ambient process environment and filesystem, plus the logical
contents of any SQLite file (consulted only on paths where `isFile`
holds). -/
structure World where
  envOpenCodeDataDir : Option String
  envHome : Option String
  envUserProfile : Option String
  cwd : String
  isDirectory : String → Bool
  isFile : String → Bool
  dbAt : String → OpenCodeDb

def DEFAULT_OPENCODE_PATH : String := ".local/share/opencode"

def OPENCODE_DB_FILENAME : String := "opencode.db"

/-- `process.env.HOME ?? process.env.USERPROFILE ?? process.cwd()`
(data-loader.ts line 36); `??` is nullish coalescing, so an empty string
is kept. -/
def USER_HOME_DIR (w : World) : String :=
  w.envHome.getD (w.envUserProfile.getD w.cwd)

/-- `path.join(a, b)` for the simple relative suffixes used here. -/
def pathJoin (a b : String) : String := a ++ "/" ++ b

/-- `path.resolve(p)`: an absolute path stands, a relative one is joined
onto the working directory. -/
def pathResolve (cwd p : String) : String :=
  if p.startsWith "/" then p else cwd ++ "/" ++ p

/-- The fallthrough to the default path (data-loader.ts lines 128-133). -/
def openCodeDefault (w : World) : Option String :=
  if w.isDirectory (pathJoin (USER_HOME_DIR w) DEFAULT_OPENCODE_PATH) then
    some (pathJoin (USER_HOME_DIR w) DEFAULT_OPENCODE_PATH)
  else
    none

/-- `getOpenCodePath` (data-loader.ts lines 117-134): the environment
override is used when set, non-blank and an existing directory; otherwise
the default directory under the home directory when it exists; otherwise
`null`. -/
def getOpenCodePath (w : World) : Option String :=
  match w.envOpenCodeDataDir with
  | some envPath =>
    if envPath.trim ≠ "" ∧ w.isDirectory (pathResolve w.cwd envPath) then
      some (pathResolve w.cwd envPath)
    else
      openCodeDefault w
  | none => openCodeDefault w

/-- `getOpenCodeDbPath` (data-loader.ts lines 140-152). -/
def getOpenCodeDbPath (w : World) : Option String :=
  match getOpenCodePath w with
  | none => none
  | some openCodePath =>
    if w.isFile (pathJoin openCodePath OPENCODE_DB_FILENAME) then
      some (pathJoin openCodePath OPENCODE_DB_FILENAME)
    else
      none

/-- `openDatabase` (data-loader.ts lines 158-165): `openSqlite` on the
resolved path, `null` when the database file is not found. -/
def openDatabase (w : World) : Option OpenCodeDb :=
  (getOpenCodeDbPath w).map w.dbAt

/-- `convertMessageToUsageEntry` (data-loader.ts lines 170-186). -/
def convertMessageToUsageEntry (row : MessageRow) (data : AssistantMessageData) :
    LoadedUsageEntry :=
  { timestamp := data.timeCreated
    sessionID := row.session_id
    inputTokens := data.tokens.input
    outputTokens := data.tokens.output
    cacheCreationInputTokens := data.tokens.cacheWrite
    cacheReadInputTokens := data.tokens.cacheRead
    model := data.modelID
    costUSD := if data.cost > 0 then some data.cost else none }

/-- `json_extract(data, '$.role') = 'assistant'`: `true` exactly when the
JSON document has a string field `role` equal to `"assistant"`. -/
def roleIsAssistant (j : Json) : Bool :=
  match j.getField "role" with
  | some (Json.str s) => s = "assistant"
  | _ => false

/-- The SQL `WHERE` test on one row; `json_extract` raises on a malformed
JSON document, aborting the query. -/
def sqlRoleIsAssistant : RawData → Except String Bool
  | .malformed _ => .error "malformed JSON"
  | .json j => .ok (roleIsAssistant j)

/-- The message query (data-loader.ts lines 234-239): keep the rows whose
`data` has role `assistant`, in table order; raise on malformed JSON. -/
def queryAssistantRows : List MessageRow → Except String (List MessageRow)
  | [] => .ok []
  | r :: rs =>
    match sqlRoleIsAssistant r.data with
    | .error e => .error e
    | .ok b =>
      match queryAssistantRows rs with
      | .error e => .error e
      | .ok rest => .ok (if b then r :: rest else rest)

/-- `JSON.parse(row.data)`: raises on a malformed document. -/
def jsonParse : RawData → Except String Json
  | .malformed _ => .error "unexpected token in JSON"
  | .json j => .ok j

/-- The skip-or-convert decision for one queried row (data-loader.ts
lines 244-256): schema failure skips the row, zero input and output
tokens skip the row, otherwise the row is converted. -/
def rowStep (r : MessageRow) (j : Json) : Option LoadedUsageEntry :=
  match parseAssistantMessageData j with
  | none => none
  | some d =>
    if d.tokens.input = 0 ∧ d.tokens.output = 0 then none
    else some (convertMessageToUsageEntry r d)

/-- The row-processing loop (data-loader.ts lines 241-259). -/
def processRows : List MessageRow → Except String (List LoadedUsageEntry)
  | [] => .ok []
  | r :: rs =>
    match jsonParse r.data with
    | .error e => .error e
    | .ok j =>
      match processRows rs with
      | .error e => .error e
      | .ok rest => .ok ((rowStep r j).elim rest (· :: rest))

/-- The body of `loadOpenCodeMessages` run against the message table. -/
def loadFromMessages (msgs : List MessageRow) : Except String (List LoadedUsageEntry) :=
  match queryAssistantRows msgs with
  | .error e => .error e
  | .ok rows => processRows rows

/-- Observable lifecycle of the SQLite handle: `openSqlite` opens with
`readonly: true` (_sqlite.ts lines 409 and 429); `db.close()` runs in the
`finally` block around row processing. -/
inductive HandleEvent where
  | openedReadOnly : HandleEvent
  | closed : HandleEvent
deriving DecidableEq

/-- `loadOpenCodeMessages` (data-loader.ts lines 226-263), paired with the
handle-event trace: no handle at all when the database is absent;
otherwise the registered open and the `finally`-guaranteed close, on the
normal and the exceptional exit path alike. -/
def loadOpenCodeMessages (w : World) :
    Except String (List LoadedUsageEntry) × List HandleEvent :=
  match openDatabase w with
  | none => (.ok [], [])
  | some db => (loadFromMessages db.messages, [.openedReadOnly, .closed])

/-- Conversion of one session row (data-loader.ts lines 206-212): an empty
title is replaced by the session id. -/
def mkSessionMetadata (row : SessionRow) : LoadedSessionMetadata :=
  { id := row.id
    parentID := row.parent_id
    title := if row.title ≠ "" then row.title else row.id
    projectID := row.project_id
    directory := row.directory }

/-- JavaScript `Map.set`: overwrite in place when the key is present,
append otherwise. -/
def mapSet (m : List (String × LoadedSessionMetadata)) (k : String)
    (val : LoadedSessionMetadata) : List (String × LoadedSessionMetadata) :=
  if m.any (fun p => p.1 = k) then
    m.map (fun p => if p.1 = k then (k, val) else p)
  else
    m ++ [(k, val)]

/-- JavaScript `Map.get`. -/
def sessionLookup : List (String × LoadedSessionMetadata) → String →
    Option LoadedSessionMetadata
  | [], _ => none
  | p :: rest, k => if p.1 = k then some p.2 else sessionLookup rest k

/-- The session accumulation loop (data-loader.ts lines 205-213). -/
def insertSessions (m : List (String × LoadedSessionMetadata)) :
    List SessionRow → List (String × LoadedSessionMetadata)
  | [] => m
  | r :: rs => insertSessions (mapSet m r.id (mkSessionMetadata r)) rs

/-- The body of `loadOpenCodeSessions` run against the session table. -/
def loadSessionsFromRows (rows : List SessionRow) :
    List (String × LoadedSessionMetadata) :=
  insertSessions [] rows

/-- `loadOpenCodeSessions` (data-loader.ts lines 192-219) with the
handle-event trace. -/
def loadOpenCodeSessions (w : World) :
    Except String (List (String × LoadedSessionMetadata)) × List HandleEvent :=
  match openDatabase w with
  | none => (.ok [], [])
  | some db => (.ok (loadSessionsFromRows db.sessions), [.openedReadOnly, .closed])

/-- `LiteLLMModelPricing`: the per-token rates of one catalog record. -/
structure LiteLLMModelPricing where
  input_cost_per_token : Option Rat
  output_cost_per_token : Option Rat
  cache_creation_input_token_cost : Option Rat
  cache_read_input_token_cost : Option Rat
deriving DecidableEq

/-- `CLAUDE_MODEL_ALIASES` (apps/ccusage pricing module, lines 18-27). -/
def CLAUDE_MODEL_ALIASES : List (String × String) :=
  [("anthropic/claude-opus-4.6", "claude-opus-4-6"),
   ("anthropic/claude-haiku-4.5", "claude-haiku-4-5"),
   ("anthropic/claude-sonnet-4.5", "claude-sonnet-4-5-20250929"),
   ("anthropic/claude-sonnet-4.6", "claude-sonnet-4-6")]

/-- `Map.get` on the alias table. -/
def aliasLookup (name : String) : Option String :=
  CLAUDE_MODEL_ALIASES.foldr
    (fun p acc => if p.1 = name then some p.2 else acc) none

/-- The pricing catalog as acquired once per run: either the mapping from
canonical model name to rates, or the explicit acquisition failure. -/
structure PricingSource where
  acquisition : Except String (List (String × LiteLLMModelPricing))

/-- Exact lookup of a model name in the acquired catalog. -/
def lookupModel (entries : List (String × LiteLLMModelPricing)) (name : String) :
    Option LiteLLMModelPricing :=
  entries.foldr (fun p acc => if p.1 = name then some p.2 else acc) none

/-- Modelled from the spec: `LiteLLMPricingFetcher.getModelPricing`, the
base-class exact lookup, lives in the `@ccusage/internal/pricing` package
outside `src/`.  Per the spec: an exact match in the catalog is returned;
an unknown name yields a successful `null`; a failure of the catalog
acquisition propagates as a distinct explicit failure. -/
def baseGetModelPricing (c : PricingSource) (name : String) :
    Except String (Option LiteLLMModelPricing) :=
  match c.acquisition with
  | .error e => .error e
  | .ok entries => .ok (lookupModel entries name)

/-- `PricingFetcher.getModelPricing` override (lines 44-66 of the pricing
module): direct lookup first; a failure is returned as is; a found record
is returned; otherwise the alias table is consulted and, on a hit, the
lookup is retried with the aliased name; otherwise the direct `null`
result stands. -/
def getModelPricing (c : PricingSource) (modelName : String) :
    Except String (Option LiteLLMModelPricing) :=
  match baseGetModelPricing c modelName with
  | .error e => .error e
  | .ok (some p) => .ok (some p)
  | .ok none =>
    match aliasLookup modelName with
    | some aliased => baseGetModelPricing c aliased
    | none => .ok none

instance {ε α : Type} [DecidableEq ε] [DecidableEq α] : DecidableEq (Except ε α) := fun x y =>
  match x, y with
  | .error a, .error b =>
    if h : a = b then isTrue (by rw [h]) else isFalse (fun hc => h (Except.error.inj hc))
  | .error _, .ok _ => isFalse (fun hc => Except.noConfusion hc)
  | .ok _, .error _ => isFalse (fun hc => Except.noConfusion hc)
  | .ok a, .ok b =>
    if h : a = b then isTrue (by rw [h]) else isFalse (fun hc => h (Except.ok.inj hc))

/-- C1: for every loaded assistant message the loader applies the cost
precedence rule: a source-supplied cost strictly greater than zero is used
verbatim as `costUSD`, while a cost of zero or less produces
`costUSD = none` so downstream cost computation treats it as not
precomputed. -/
theorem convertMessage_cost_precedence (row : MessageRow) (d : AssistantMessageData) :
    (0 < d.cost → (convertMessageToUsageEntry row d).costUSD = some d.cost) ∧
    (d.cost ≤ 0 → (convertMessageToUsageEntry row d).costUSD = none) := by
  constructor
  · intro h
    simp [convertMessageToUsageEntry, h]
  · intro h
    simp [convertMessageToUsageEntry, not_lt.mpr h]

def rowW1 : MessageRow :=
  { id := "msg_1", session_id := "ses_1", time_created := 0, data := .json .null }

def tokensW1 : AssistantTokens :=
  { input := 100, output := 200, reasoning := 0, total := none, cacheRead := 50, cacheWrite := 25 }

def dataW1 : AssistantMessageData :=
  { modelID := "anthropic/claude-sonnet-4-5", providerID := "anthropic",
    timeCreated := 1700000000000, timeCompleted := none, cost := 1, tokens := tokensW1 }

def dataW1zero : AssistantMessageData :=
  { modelID := "openai/gpt-5.1", providerID := "openai",
    timeCreated := 1700000000000, timeCompleted := none, cost := 0, tokens := tokensW1 }

theorem convertMessage_cost_precedence_witness :
    (0 < dataW1.cost ∧ (convertMessageToUsageEntry rowW1 dataW1).costUSD = some dataW1.cost) ∧
    (dataW1zero.cost ≤ 0 ∧ (convertMessageToUsageEntry rowW1 dataW1zero).costUSD = none) :=
  ⟨⟨by decide, (convertMessage_cost_precedence rowW1 dataW1).1 (by decide)⟩,
   ⟨by decide, (convertMessage_cost_precedence rowW1 dataW1zero).2 (by decide)⟩⟩

/-- C4: whenever the data source (directory or database file) does not
exist, both loading operations produce an empty sequence and a successful
result: absence is not an error. -/
theorem load_absent_source_empty (w : World) (h : getOpenCodeDbPath w = none) :
    loadOpenCodeMessages w = (.ok [], []) ∧ loadOpenCodeSessions w = (.ok [], []) := by
  constructor <;> simp [loadOpenCodeMessages, loadOpenCodeSessions, openDatabase, h]

def emptyDb : OpenCodeDb := { messages := [], sessions := [] }

def wC4 : World :=
  { envOpenCodeDataDir := none, envHome := some "/home/u", envUserProfile := none,
    cwd := "/", isDirectory := fun _ => false, isFile := fun _ => false,
    dbAt := fun _ => emptyDb }

theorem load_absent_source_empty_witness :
    getOpenCodeDbPath wC4 = none ∧ loadOpenCodeMessages wC4 = (.ok [], []) :=
  ⟨by decide, (load_absent_source_empty wC4 (by decide)).1⟩

/-- C8: every loading operation that successfully opens the database
opens it read-only and closes it before returning, on every exit path:
the handle-event trace is exactly one read-only open followed by one
close, independently of whether row processing succeeded or raised. -/
theorem handle_open_close_trace (w : World) (db : OpenCodeDb)
    (h : openDatabase w = some db) :
    (loadOpenCodeMessages w).2 = [HandleEvent.openedReadOnly, HandleEvent.closed] ∧
    (loadOpenCodeSessions w).2 = [HandleEvent.openedReadOnly, HandleEvent.closed] := by
  constructor <;> simp [loadOpenCodeMessages, loadOpenCodeSessions, h]

def rowMalformed : MessageRow :=
  { id := "msg_bad", session_id := "ses_1", time_created := 0, data := .malformed "not json" }

def dbC8 : OpenCodeDb := { messages := [rowMalformed], sessions := [] }

def wC8 : World :=
  { envOpenCodeDataDir := none, envHome := some "/home/u", envUserProfile := none,
    cwd := "/",
    isDirectory := fun p => p = "/home/u/.local/share/opencode",
    isFile := fun p => p = "/home/u/.local/share/opencode/opencode.db",
    dbAt := fun _ => dbC8 }

theorem handle_open_close_trace_witness :
    openDatabase wC8 = some dbC8 ∧
    (loadOpenCodeMessages wC8).1 = Except.error "malformed JSON" ∧
    (loadOpenCodeMessages wC8).2 = [HandleEvent.openedReadOnly, HandleEvent.closed] :=
  ⟨rfl, rfl, (handle_open_close_trace wC8 dbC8 rfl).1⟩

/-- C2: pricing resolution first attempts the exact catalog lookup; a
found record is returned as is, and only a successful no-match consults
the static alias table, in which case the lookup is retried with the
aliased name, so a name absent from the catalog but present in the alias
table resolves to the aliased record's pricing. -/
theorem getModelPricing_alias_resolution (c : PricingSource) (name a : String) :
    (∀ p, baseGetModelPricing c name = .ok (some p) → getModelPricing c name = .ok (some p)) ∧
    (baseGetModelPricing c name = .ok none → aliasLookup name = some a →
      getModelPricing c name = baseGetModelPricing c a) := by
  constructor
  · intro p hp
    simp [getModelPricing, hp]
  · intro h ha
    simp [getModelPricing, h, ha]

def pricingOpus : LiteLLMModelPricing :=
  { input_cost_per_token := some 3, output_cost_per_token := some 15,
    cache_creation_input_token_cost := none, cache_read_input_token_cost := none }

def catW2 : PricingSource := { acquisition := .ok [("claude-opus-4-6", pricingOpus)] }

theorem getModelPricing_alias_resolution_witness :
    baseGetModelPricing catW2 "anthropic/claude-opus-4.6" = .ok none ∧
    aliasLookup "anthropic/claude-opus-4.6" = some "claude-opus-4-6" ∧
    getModelPricing catW2 "anthropic/claude-opus-4.6" =
      baseGetModelPricing catW2 "claude-opus-4-6" ∧
    baseGetModelPricing catW2 "claude-opus-4-6" = .ok (some pricingOpus) :=
  ⟨by decide, by decide,
   (getModelPricing_alias_resolution catW2 "anthropic/claude-opus-4.6"
      "claude-opus-4-6").2 (by decide) (by decide),
   by decide⟩

/-- C7: a model name that cannot be resolved (no exact match and no
applicable alias) yields a successful `none`, never an error, while a
failure of the catalog acquisition propagates as the explicit failure
value, without the alias table changing the outcome. -/
theorem getModelPricing_unresolved_or_failure (c : PricingSource) (name : String) :
    (∀ e, c.acquisition = .error e → getModelPricing c name = .error e) ∧
    (∀ entries, c.acquisition = .ok entries → lookupModel entries name = none →
      (aliasLookup name = none ∨
        ∃ a, aliasLookup name = some a ∧ lookupModel entries a = none) →
      getModelPricing c name = .ok none) := by
  constructor
  · intro e he
    simp [getModelPricing, baseGetModelPricing, he]
  · intro entries hacq hmiss halias
    have hbase : baseGetModelPricing c name = .ok none := by
      simp [baseGetModelPricing, hacq, hmiss]
    rcases halias with h | ⟨a, ha, hamiss⟩
    · simp [getModelPricing, hbase, h]
    · simp [getModelPricing, baseGetModelPricing, hacq, hmiss, ha, hamiss]

def catW7 : PricingSource := { acquisition := .ok [("claude-opus-4-6", pricingOpus)] }

def catW7fail : PricingSource := { acquisition := .error "fetch failed" }

theorem getModelPricing_unresolved_or_failure_witness :
    getModelPricing catW7fail "claude-opus-4-6" = .error "fetch failed" ∧
    getModelPricing catW7 "totally-unknown-model" = .ok none :=
  ⟨(getModelPricing_unresolved_or_failure catW7fail "claude-opus-4-6").1
      "fetch failed" (by decide),
   (getModelPricing_unresolved_or_failure catW7 "totally-unknown-model").2
      [("claude-opus-4-6", pricingOpus)] (by decide) (by decide) (Or.inl (by decide))⟩

theorem mem_mapSet {m : List (String × LoadedSessionMetadata)} {k : String}
    {val : LoadedSessionMetadata} {p : String × LoadedSessionMetadata}
    (h : p ∈ mapSet m k val) : p ∈ m ∨ p = (k, val) := by
  unfold mapSet at h
  split at h
  · rcases List.mem_map.mp h with ⟨q, hq, hqe⟩
    by_cases hk : q.1 = k
    · right
      rw [if_pos hk] at hqe
      exact hqe.symm
    · left
      rw [if_neg hk] at hqe
      exact hqe ▸ hq
  · rcases List.mem_append.mp h with h1 | h1
    · exact Or.inl h1
    · right
      simpa using h1

theorem mem_insertSessions {acc : List (String × LoadedSessionMetadata)}
    {rows : List SessionRow} {p : String × LoadedSessionMetadata}
    (h : p ∈ insertSessions acc rows) :
    p ∈ acc ∨ ∃ r ∈ rows, p.1 = r.id ∧ p.2 = mkSessionMetadata r := by
  induction rows generalizing acc with
  | nil => exact Or.inl h
  | cons r rs ih =>
    rcases ih (by simpa [insertSessions] using h) with h1 | h1
    · rcases mem_mapSet h1 with h2 | h2
      · exact Or.inl h2
      · right
        exact ⟨r, by simp, by simp [h2]⟩
    · right
      rcases h1 with ⟨r2, hr2, he⟩
      exact ⟨r2, by simp [hr2], he⟩

theorem sessionLookup_append_single (m : List (String × LoadedSessionMetadata))
    (k k2 : String) (val : LoadedSessionMetadata) :
    sessionLookup (m ++ [(k, val)]) k2 =
      match sessionLookup m k2 with
      | some v => some v
      | none => if k = k2 then some val else none := by
  induction m with
  | nil => simp [sessionLookup]
  | cons p m ih =>
    by_cases hp : p.1 = k2
    · simp [sessionLookup, hp]
    · simp only [List.cons_append, sessionLookup, if_neg hp]
      exact ih

theorem sessionLookup_none_of_no_key {m : List (String × LoadedSessionMetadata)}
    {k : String} (h : m.any (fun p => p.1 = k) = false) :
    sessionLookup m k = none := by
  induction m with
  | nil => rfl
  | cons p m ih =>
    simp only [List.any_cons, Bool.or_eq_false_iff] at h
    have hp : ¬(p.1 = k) := by simpa using h.1
    simp only [sessionLookup, if_neg hp]
    exact ih h.2

theorem sessionLookup_map_replace {m : List (String × LoadedSessionMetadata)}
    {k : String} (val : LoadedSessionMetadata)
    (h : m.any (fun p => p.1 = k) = true) :
    sessionLookup (m.map (fun p => if p.1 = k then (k, val) else p)) k = some val := by
  induction m with
  | nil => cases h
  | cons p m ih =>
    by_cases hp : p.1 = k
    · simp [sessionLookup, hp]
    · simp only [List.any_cons, Bool.or_eq_true_iff] at h
      rcases h with h1 | h1
      · exact absurd (of_decide_eq_true h1) hp
      · simp only [List.map_cons, if_neg hp, sessionLookup, if_neg hp]
        exact ih h1

theorem sessionLookup_map_replace_ne (m : List (String × LoadedSessionMetadata))
    (k k2 : String) (val : LoadedSessionMetadata) (h : k2 ≠ k) :
    sessionLookup (m.map (fun p => if p.1 = k then (k, val) else p)) k2 =
      sessionLookup m k2 := by
  induction m with
  | nil => rfl
  | cons p m ih =>
    by_cases hp : p.1 = k
    · have hk2 : ¬(k = k2) := fun he => h he.symm
      have hpk2 : ¬(p.1 = k2) := by rw [hp]; exact hk2
      simp only [List.map_cons, if_pos hp, sessionLookup, if_neg hk2, if_neg hpk2]
      exact ih
    · simp only [List.map_cons, if_neg hp, sessionLookup]
      rw [ih]

theorem sessionLookup_mapSet_self (m : List (String × LoadedSessionMetadata))
    (k : String) (val : LoadedSessionMetadata) :
    sessionLookup (mapSet m k val) k = some val := by
  unfold mapSet
  split
  · exact sessionLookup_map_replace val (by assumption)
  · rename_i hany
    rw [Bool.not_eq_true] at hany
    rw [sessionLookup_append_single, sessionLookup_none_of_no_key hany]
    simp

theorem sessionLookup_mapSet_ne (m : List (String × LoadedSessionMetadata))
    (k k2 : String) (val : LoadedSessionMetadata) (h : k2 ≠ k) :
    sessionLookup (mapSet m k val) k2 = sessionLookup m k2 := by
  unfold mapSet
  split
  · exact sessionLookup_map_replace_ne m k k2 val h
  · rw [sessionLookup_append_single]
    cases hm : sessionLookup m k2 with
    | some v => rfl
    | none => rw [if_neg (fun he => h he.symm)]

theorem sessionLookup_insertSessions_isSome {acc : List (String × LoadedSessionMetadata)}
    {rows : List SessionRow} {k : String}
    (h : (sessionLookup acc k).isSome) :
    (sessionLookup (insertSessions acc rows) k).isSome := by
  induction rows generalizing acc with
  | nil => exact h
  | cons r rs ih =>
    show (sessionLookup (insertSessions (mapSet acc r.id (mkSessionMetadata r)) rs) k).isSome
    apply ih
    by_cases hk : k = r.id
    · rw [hk, sessionLookup_mapSet_self]
      rfl
    · rw [sessionLookup_mapSet_ne _ _ _ _ hk]
      exact h

theorem sessionLookup_insertSessions_mem {acc : List (String × LoadedSessionMetadata)}
    {rows : List SessionRow} {r : SessionRow} (hr : r ∈ rows) :
    (sessionLookup (insertSessions acc rows) r.id).isSome := by
  induction rows generalizing acc with
  | nil => cases hr
  | cons r2 rs ih =>
    rcases List.mem_cons.mp hr with he | hm
    · subst he
      show (sessionLookup (insertSessions (mapSet acc r.id (mkSessionMetadata r)) rs) r.id).isSome
      exact sessionLookup_insertSessions_isSome (by rw [sessionLookup_mapSet_self]; rfl)
    · exact ih hm

/-- C9: every entry of the returned session map is keyed by a session id
and carries the converted metadata of a row with that id; every loaded
row's id is a key of the map; and the conversion preserves a non-empty
stored title while replacing an empty one by the session id. -/
theorem loadSessions_title_and_keys (rows : List SessionRow) :
    (∀ p ∈ loadSessionsFromRows rows, ∃ r ∈ rows, p.1 = r.id ∧ p.2 = mkSessionMetadata r) ∧
    (∀ r ∈ rows, (sessionLookup (loadSessionsFromRows rows) r.id).isSome) ∧
    (∀ r : SessionRow, (r.title = "" → (mkSessionMetadata r).title = r.id) ∧
      (r.title ≠ "" → (mkSessionMetadata r).title = r.title)) := by
  refine ⟨?_, ?_, ?_⟩
  · intro p hp
    rcases mem_insertSessions hp with h | h
    · cases h
    · exact h
  · intro r hr
    exact sessionLookup_insertSessions_mem hr
  · intro r
    constructor
    · intro h
      simp [mkSessionMetadata, h]
    · intro h
      simp [mkSessionMetadata, h]

def rowSessW : SessionRow :=
  { id := "ses_1", parent_id := none, title := "", project_id := "proj", directory := "/w" }

def rowSessW2 : SessionRow :=
  { id := "ses_2", parent_id := some "ses_1", title := "My title", project_id := "proj",
    directory := "/w" }

theorem loadSessions_title_and_keys_witness :
    (sessionLookup (loadSessionsFromRows [rowSessW, rowSessW2]) "ses_1").isSome ∧
    (mkSessionMetadata rowSessW).title = "ses_1" ∧
    (mkSessionMetadata rowSessW2).title = "My title" :=
  ⟨(loadSessions_title_and_keys [rowSessW, rowSessW2]).2.1 rowSessW (by simp),
   ((loadSessions_title_and_keys [rowSessW, rowSessW2]).2.2 rowSessW).1 rfl,
   ((loadSessions_title_and_keys [rowSessW, rowSessW2]).2.2 rowSessW2).2 (by decide)⟩

theorem rowStep_cost {r : MessageRow} {j : Json} {e : LoadedUsageEntry}
    (h : rowStep r j = some e) :
    e.costUSD = none ∨ ∃ c, e.costUSD = some c ∧ 0 < c := by
  unfold rowStep at h
  split at h
  · cases h
  · rename_i d hp
    split at h
    · cases h
    · cases h
      unfold convertMessageToUsageEntry
      by_cases hc : d.cost > 0
      · exact Or.inr ⟨d.cost, by simp [hc], hc⟩
      · exact Or.inl (by simp [hc])

theorem processRows_cost_invariant {rows : List MessageRow}
    {es : List LoadedUsageEntry} (h : processRows rows = .ok es) :
    ∀ e ∈ es, e.costUSD = none ∨ ∃ c, e.costUSD = some c ∧ 0 < c := by
  induction rows generalizing es with
  | nil =>
    cases h
    intro e he
    cases he
  | cons r rs ih =>
    unfold processRows at h
    split at h
    · cases h
    · rename_i j hj
      split at h
      · cases h
      · rename_i rest hrest
        cases hstep : rowStep r j with
        | none =>
          rw [hstep] at h
          simp only [Option.elim] at h
          cases h
          exact ih hrest
        | some e0 =>
          rw [hstep] at h
          simp only [Option.elim] at h
          cases h
          intro e he
          rcases List.mem_cons.mp he with he0 | hem
          · subst he0
            exact rowStep_cost hstep
          · exact ih hrest e hem

/-- C10: every usage entry returned by the message loader has a `costUSD`
that is either absent or strictly positive; no returned entry carries a
cost of exactly zero or a negative cost. -/
theorem loadMessages_cost_positive_or_null (w : World) (es : List LoadedUsageEntry)
    (h : (loadOpenCodeMessages w).1 = .ok es) :
    ∀ e ∈ es, e.costUSD = none ∨ ∃ c, e.costUSD = some c ∧ 0 < c := by
  unfold loadOpenCodeMessages at h
  cases hdb : openDatabase w with
  | none =>
    rw [hdb] at h
    cases h
    intro e he
    cases he
  | some db =>
    rw [hdb] at h
    have h2 : loadFromMessages db.messages = .ok es := h
    unfold loadFromMessages at h2
    split at h2
    · cases h2
    · exact processRows_cost_invariant h2

def jGoodW10 : Json :=
  .obj [("role", .str "assistant"), ("modelID", .str "anthropic/claude-sonnet-4-5"),
        ("providerID", .str "anthropic"),
        ("time", .obj [("created", .num 1700000000000)]),
        ("cost", .num 1),
        ("tokens", .obj [("input", .num 100), ("output", .num 200), ("reasoning", .num 0),
                         ("cache", .obj [("read", .num 50), ("write", .num 25)])])]

def jFreeW10 : Json :=
  .obj [("role", .str "assistant"), ("modelID", .str "openai/gpt-5.1"),
        ("providerID", .str "openai"),
        ("time", .obj [("created", .num 1700000000001)]),
        ("cost", .num 0),
        ("tokens", .obj [("input", .num 50), ("output", .num 100),
                         ("cache", .obj [("read", .num 0), ("write", .num 0)])])]

def dbW10 : OpenCodeDb :=
  { messages :=
      [{ id := "m1", session_id := "ses_1", time_created := 1700000000000,
         data := .json jGoodW10 },
       { id := "m2", session_id := "ses_1", time_created := 1700000000001,
         data := .json jFreeW10 }],
    sessions := [] }

def wC10 : World :=
  { envOpenCodeDataDir := none, envHome := some "/home/u", envUserProfile := none,
    cwd := "/",
    isDirectory := fun p => p = "/home/u/.local/share/opencode",
    isFile := fun p => p = "/home/u/.local/share/opencode/opencode.db",
    dbAt := fun _ => dbW10 }

def entryW10a : LoadedUsageEntry :=
  { timestamp := 1700000000000, sessionID := "ses_1", inputTokens := 100,
    outputTokens := 200, cacheCreationInputTokens := 25, cacheReadInputTokens := 50,
    model := "anthropic/claude-sonnet-4-5", costUSD := some 1 }

def entryW10b : LoadedUsageEntry :=
  { timestamp := 1700000000001, sessionID := "ses_1", inputTokens := 50,
    outputTokens := 100, cacheCreationInputTokens := 0, cacheReadInputTokens := 0,
    model := "openai/gpt-5.1", costUSD := none }

theorem loadMessages_cost_positive_or_null_witness :
    (loadOpenCodeMessages wC10).1 = .ok [entryW10a, entryW10b] ∧
    (entryW10b.costUSD = none ∨ ∃ c, entryW10b.costUSD = some c ∧ 0 < c) :=
  ⟨by decide,
   loadMessages_cost_positive_or_null wC10 [entryW10a, entryW10b] (by decide)
     entryW10b (by simp)⟩

theorem queryAssistantRows_append (xs ys : List MessageRow) :
    queryAssistantRows (xs ++ ys) =
      match queryAssistantRows xs with
      | .error e => .error e
      | .ok a =>
        match queryAssistantRows ys with
        | .error e => .error e
        | .ok b => .ok (a ++ b) := by
  induction xs with
  | nil =>
    simp only [List.nil_append, queryAssistantRows]
    cases hy : queryAssistantRows ys with
    | error e => rfl
    | ok b => simp
  | cons r rs ih =>
    simp only [List.cons_append, queryAssistantRows]
    rw [show queryAssistantRows (rs.append ys) = queryAssistantRows (rs ++ ys) from rfl, ih]
    cases hr : sqlRoleIsAssistant r.data with
    | error e => rfl
    | ok b =>
      cases h1 : queryAssistantRows rs with
      | error e => rfl
      | ok a =>
        cases h2 : queryAssistantRows ys with
        | error e => rfl
        | ok b2 => cases b <;> simp

theorem processRows_append (xs ys : List MessageRow) :
    processRows (xs ++ ys) =
      match processRows xs with
      | .error e => .error e
      | .ok a =>
        match processRows ys with
        | .error e => .error e
        | .ok b => .ok (a ++ b) := by
  induction xs with
  | nil =>
    simp only [List.nil_append, processRows]
    cases hy : processRows ys with
    | error e => rfl
    | ok b => simp
  | cons r rs ih =>
    simp only [List.cons_append, processRows]
    rw [show processRows (rs.append ys) = processRows (rs ++ ys) from rfl, ih]
    cases hr : jsonParse r.data with
    | error e => rfl
    | ok j =>
      cases h1 : processRows rs with
      | error e => rfl
      | ok a =>
        cases h2 : processRows ys with
        | error e => rfl
        | ok b => cases hstep : rowStep r j <;> simp [Option.elim, hstep]

theorem queryAssistantRows_singleton_false {bad : MessageRow} {j : Json}
    (hwf : bad.data = RawData.json j) (hrole : roleIsAssistant j = false) :
    queryAssistantRows [bad] = .ok [] := by
  simp only [queryAssistantRows, sqlRoleIsAssistant, hwf, hrole]
  simp

theorem queryAssistantRows_singleton_true {bad : MessageRow} {j : Json}
    (hwf : bad.data = RawData.json j) (hrole : roleIsAssistant j = true) :
    queryAssistantRows [bad] = .ok [bad] := by
  simp only [queryAssistantRows, sqlRoleIsAssistant, hwf, hrole]
  simp

theorem processRows_singleton_skip {bad : MessageRow} {j : Json}
    (hwf : bad.data = RawData.json j) (hstep : rowStep bad j = none) :
    processRows [bad] = .ok [] := by
  simp only [processRows, jsonParse, hwf, hstep, Option.elim]

/-- C5: a queried row whose JSON payload fails schema validation (missing
required fields, wrong types, or a non-assistant role) is skipped without
aborting the load: removing such a row from the table leaves the loaded
result unchanged, so every remaining valid row is still converted and
returned. -/
theorem invalid_row_skipped (pre post : List MessageRow) (bad : MessageRow) (j : Json)
    (hwf : bad.data = RawData.json j)
    (hbad : roleIsAssistant j = false ∨ parseAssistantMessageData j = none) :
    loadFromMessages (pre ++ bad :: post) = loadFromMessages (pre ++ post) := by
  unfold loadFromMessages
  rw [show pre ++ bad :: post = pre ++ ([bad] ++ post) from by simp,
      queryAssistantRows_append pre ([bad] ++ post),
      queryAssistantRows_append [bad] post, queryAssistantRows_append pre post]
  cases hrole : roleIsAssistant j with
  | false =>
    rw [queryAssistantRows_singleton_false hwf hrole]
    cases h1 : queryAssistantRows pre with
    | error e => rfl
    | ok a =>
      cases h2 : queryAssistantRows post with
      | error e => rfl
      | ok b =>
        show processRows (a ++ ([] ++ b)) = processRows (a ++ b)
        rw [List.nil_append]
  | true =>
    have hparse : parseAssistantMessageData j = none := by
      rcases hbad with h | h
      · rw [hrole] at h; cases h
      · exact h
    have hstep : rowStep bad j = none := by
      unfold rowStep
      rw [hparse]
    have hps := processRows_singleton_skip hwf hstep
    rw [queryAssistantRows_singleton_true hwf hrole]
    cases h1 : queryAssistantRows pre with
    | error e => rfl
    | ok a =>
      cases h2 : queryAssistantRows post with
      | error e => rfl
      | ok b =>
        show processRows (a ++ ([bad] ++ b)) = processRows (a ++ b)
        rw [processRows_append a ([bad] ++ b), processRows_append [bad] b,
            processRows_append a b, hps]
        cases p1 : processRows a with
        | error e => rfl
        | ok a2 =>
          cases p2 : processRows b with
          | error e => rfl
          | ok b2 => simp

def jBadW5 : Json :=
  .obj [("role", .str "assistant"), ("time", .obj [("created", .num 3)])]

def rowW5a : MessageRow :=
  { id := "a", session_id := "ses_1", time_created := 0, data := .json jGoodW10 }

def rowW5bad : MessageRow :=
  { id := "b", session_id := "ses_1", time_created := 0, data := .json jBadW5 }

def rowW5c : MessageRow :=
  { id := "c", session_id := "ses_1", time_created := 0, data := .json jFreeW10 }

theorem invalid_row_skipped_witness :
    rowW5bad.data = RawData.json jBadW5 ∧
    parseAssistantMessageData jBadW5 = none ∧
    loadFromMessages [rowW5a, rowW5bad, rowW5c] = loadFromMessages [rowW5a, rowW5c] :=
  ⟨rfl, by decide,
   invalid_row_skipped [rowW5a] [rowW5c] rowW5bad jBadW5 rfl (Or.inr (by decide))⟩

theorem roleIsAssistant_iff (j : Json) :
    roleIsAssistant j = true ↔
      (j.getField "role").bind Json.asString = some "assistant" := by
  unfold roleIsAssistant
  cases hf : j.getField "role" with
  | none => simp [Option.bind]
  | some jv => cases jv <;> simp [Json.asString, Option.bind]

theorem parse_none_of_not_assistant {j : Json} (h : roleIsAssistant j = false) :
    parseAssistantMessageData j = none := by
  have hc : ¬((j.getField "role").bind Json.asString = some "assistant") := fun hc => by
    rw [(roleIsAssistant_iff j).mpr hc] at h
    cases h
  unfold parseAssistantMessageData
  exact if_neg hc

theorem roleIsAssistant_true_of_parse {j : Json} {d : AssistantMessageData}
    (h : parseAssistantMessageData j = some d) : roleIsAssistant j = true := by
  by_contra hc
  rw [Bool.not_eq_true] at hc
  rw [parse_none_of_not_assistant hc] at h
  cases h

theorem role_field_of_assistant {j : Json} (h : roleIsAssistant j = true) :
    j.getField "role" = some (Json.str "assistant") := by
  unfold roleIsAssistant at h
  cases hf : j.getField "role" with
  | none => rw [hf] at h; cases h
  | some jv =>
    rw [hf] at h
    cases jv with
    | str s =>
      simp only [decide_eq_true_eq] at h
      rw [h]
    | null => simp at h
    | bool b => simp at h
    | num q => simp at h
    | arr xs => simp at h
    | obj fs => simp at h

/-- The SQL-level role test lifted to a whole row. -/
def rowRole (r : MessageRow) : Bool :=
  match r.data with
  | .json j => roleIsAssistant j
  | .malformed _ => false

/-- The composite skip-or-convert decision for one raw table row. -/
def entryOfRow (r : MessageRow) : Option LoadedUsageEntry :=
  match r.data with
  | .malformed _ => none
  | .json j => rowStep r j

theorem entryOfRow_none_of_role_false {r : MessageRow} (h : rowRole r = false) :
    entryOfRow r = none := by
  cases hd : r.data with
  | malformed s => simp [entryOfRow, hd]
  | json j =>
    have hrole : roleIsAssistant j = false := by simpa [rowRole, hd] using h
    simp [entryOfRow, hd, rowStep, parse_none_of_not_assistant hrole]

theorem queryAssistantRows_wf (msgs : List MessageRow)
    (hwf : ∀ r ∈ msgs, ∃ j, r.data = RawData.json j) :
    queryAssistantRows msgs = .ok (msgs.filter rowRole) := by
  induction msgs with
  | nil => rfl
  | cons r rs ih =>
    obtain ⟨j, hj⟩ := hwf r (by simp)
    have ih2 := ih (fun r2 hr2 => hwf r2 (by simp [hr2]))
    have hrr : rowRole r = roleIsAssistant j := by simp [rowRole, hj]
    simp only [queryAssistantRows, sqlRoleIsAssistant, hj, ih2, List.filter_cons, hrr]

theorem processRows_wf (rows : List MessageRow)
    (hwf : ∀ r ∈ rows, ∃ j, r.data = RawData.json j) :
    processRows rows = .ok (rows.filterMap entryOfRow) := by
  induction rows with
  | nil => rfl
  | cons r rs ih =>
    obtain ⟨j, hj⟩ := hwf r (by simp)
    have ih2 := ih (fun r2 hr2 => hwf r2 (by simp [hr2]))
    have her : entryOfRow r = rowStep r j := by simp [entryOfRow, hj]
    simp only [processRows, jsonParse, hj, ih2, List.filterMap_cons, her]
    cases hstep : rowStep r j <;> simp [Option.elim, hstep]

theorem filterMap_filter_entry (msgs : List MessageRow) :
    (msgs.filter rowRole).filterMap entryOfRow = msgs.filterMap entryOfRow := by
  induction msgs with
  | nil => rfl
  | cons r rs ih =>
    cases hp : rowRole r with
    | false =>
      simp [List.filter_cons, hp, List.filterMap_cons, entryOfRow_none_of_role_false hp, ih]
    | true => simp [List.filter_cons, hp, List.filterMap_cons, ih]

/-- C6: over a table of well-formed rows, the message loader returns only
assistant-role entries, excludes every assistant entry whose input and
output token counts are both zero, and includes the conversion of every
other assistant entry. -/
theorem loadMessages_assistant_nonzero_filter (msgs : List MessageRow)
    (hwf : ∀ r ∈ msgs, ∃ j, r.data = RawData.json j) :
    ∃ es, loadFromMessages msgs = .ok es ∧
      (∀ e ∈ es, ∃ r ∈ msgs, ∃ j, ∃ d, r.data = RawData.json j ∧
        Json.getField j "role" = some (Json.str "assistant") ∧
        parseAssistantMessageData j = some d ∧
        ¬(d.tokens.input = 0 ∧ d.tokens.output = 0) ∧
        e = convertMessageToUsageEntry r d) ∧
      (∀ r ∈ msgs, ∀ j d, r.data = RawData.json j →
        parseAssistantMessageData j = some d →
        ¬(d.tokens.input = 0 ∧ d.tokens.output = 0) →
        convertMessageToUsageEntry r d ∈ es) := by
  refine ⟨msgs.filterMap entryOfRow, ?_, ?_, ?_⟩
  · unfold loadFromMessages
    rw [queryAssistantRows_wf msgs hwf]
    show processRows (msgs.filter rowRole) = _
    rw [processRows_wf _ (fun r hr => hwf r (List.mem_of_mem_filter hr)),
        filterMap_filter_entry msgs]
  · intro e he
    rcases List.mem_filterMap.mp he with ⟨r, hr, hfr⟩
    cases hd : r.data with
    | malformed s => simp [entryOfRow, hd] at hfr
    | json j =>
      rw [show entryOfRow r = rowStep r j from by simp [entryOfRow, hd]] at hfr
      unfold rowStep at hfr
      split at hfr
      · cases hfr
      · rename_i d hparse
        split at hfr
        · cases hfr
        · rename_i htok
          cases hfr
          exact ⟨r, hr, j, d, hd,
            role_field_of_assistant (roleIsAssistant_true_of_parse hparse),
            hparse, htok, rfl⟩
  · intro r hr j d hd hparse htok
    apply List.mem_filterMap.mpr
    refine ⟨r, hr, ?_⟩
    simp [entryOfRow, hd, rowStep, hparse, htok]

def rowW6 : MessageRow :=
  { id := "m6", session_id := "ses_6", time_created := 1700000000000,
    data := .json jGoodW10 }

theorem loadMessages_assistant_nonzero_filter_witness :
    ∃ es, loadFromMessages [rowW6] = .ok es ∧
      (∀ e ∈ es, ∃ r ∈ [rowW6], ∃ j, ∃ d, r.data = RawData.json j ∧
        Json.getField j "role" = some (Json.str "assistant") ∧
        parseAssistantMessageData j = some d ∧
        ¬(d.tokens.input = 0 ∧ d.tokens.output = 0) ∧
        e = convertMessageToUsageEntry r d) ∧
      (∀ r ∈ [rowW6], ∀ j d, r.data = RawData.json j →
        parseAssistantMessageData j = some d →
        ¬(d.tokens.input = 0 ∧ d.tokens.output = 0) →
        convertMessageToUsageEntry r d ∈ es) :=
  loadMessages_assistant_nonzero_filter [rowW6]
    (fun r hr => by
      rw [List.mem_singleton] at hr
      subst hr
      exact ⟨jGoodW10, rfl⟩)

def dbC3 : OpenCodeDb :=
  { messages := [{ id := "m1", session_id := "ses_1", time_created := 1700000000000,
                   data := .json jGoodW10 }],
    sessions := [] }

def wC3 : World :=
  { envOpenCodeDataDir := none, envHome := some "/home/u", envUserProfile := none,
    cwd := "/",
    isDirectory := fun p => p = "/home/u/.local/share/opencode",
    isFile := fun p => p = "/home/u/.local/share/opencode/opencode.db",
    dbAt := fun _ => dbC3 }

/-- C3 counterexample: a world whose override variable is unset but whose
default data directory holds a database with one valid assistant message;
loading returns that message, not an empty result, so an unset override
does not by itself make the loader behave as if no data exists. -/
theorem env_unset_not_empty_counterexample :
    wC3.envOpenCodeDataDir = none ∧
    (loadOpenCodeMessages wC3).1 ≠ Except.ok ([] : List LoadedUsageEntry) :=
  ⟨rfl, by decide⟩

/-- C3 (amended): when the override variable is unset, blank, or points to
a non-existent directory, the loader ignores it and falls back to the
default data directory under the home directory; only when that directory,
or the database file inside it, is also absent does loading return an
empty result rather than an error. -/
theorem env_override_fallback_empty (w : World)
    (henv : w.envOpenCodeDataDir = none ∨
      ∃ s, w.envOpenCodeDataDir = some s ∧
        (s.trim = "" ∨ w.isDirectory (pathResolve w.cwd s) = false))
    (hdef : w.isDirectory (pathJoin (USER_HOME_DIR w) DEFAULT_OPENCODE_PATH) = false ∨
      w.isFile (pathJoin (pathJoin (USER_HOME_DIR w) DEFAULT_OPENCODE_PATH)
        OPENCODE_DB_FILENAME) = false) :
    loadOpenCodeMessages w = (.ok [], []) ∧ loadOpenCodeSessions w = (.ok [], []) := by
  have hpath : getOpenCodePath w = openCodeDefault w := by
    unfold getOpenCodePath
    rcases henv with h | ⟨s, hs, hcase⟩
    · rw [h]
    · rw [hs]
      rcases hcase with h1 | h1 <;> simp [h1]
  have hdb : getOpenCodeDbPath w = none := by
    unfold getOpenCodeDbPath
    rw [hpath]
    unfold openCodeDefault
    rcases hdef with h1 | h1
    · simp [h1]
    · cases hdir : w.isDirectory (pathJoin (USER_HOME_DIR w) DEFAULT_OPENCODE_PATH) with
      | false => simp [hdir]
      | true => simp [hdir, h1]
  constructor <;>
    simp [loadOpenCodeMessages, loadOpenCodeSessions, openDatabase, hdb]

def wC3b : World :=
  { envOpenCodeDataDir := none, envHome := some "/home/u",
    envUserProfile := none, cwd := "/",
    isDirectory := fun p => p = "/home/u/.local/share/opencode",
    isFile := fun _ => false, dbAt := fun _ => dbC3 }

theorem env_override_fallback_empty_witness :
    wC3b.envOpenCodeDataDir = none ∧
    wC3b.isDirectory (pathJoin (USER_HOME_DIR wC3b) DEFAULT_OPENCODE_PATH) = true ∧
    wC3b.isFile (pathJoin (pathJoin (USER_HOME_DIR wC3b) DEFAULT_OPENCODE_PATH)
      OPENCODE_DB_FILENAME) = false ∧
    loadOpenCodeMessages wC3b = (.ok [], []) :=
  ⟨rfl, by decide, rfl,
   (env_override_fallback_empty wC3b (Or.inl rfl) (Or.inr rfl)).1⟩

end Ccusage
